import Mathlib

/-!
Verification development for the `simple-dynamo-wrapper` repository: a shallow
embedding of its expression-building and filter-compilation engine
(`src/filters/filter-expression.ts`, `src/utils/query-request/comparator.ts`,
`src/utils/expression-attribute-names.ts`, the reserved-keyword rewriters in
`src/types/dynamo-query-request.types.ts`, the query/update/scan command
builders and `parseDynamoKeyValue`), together with theorems settling the
frozen claims about that engine.

Conventions of the embedding:
* JavaScript objects used as string-keyed maps are modelled as association
  lists `List (String × α)` with JS property-assignment semantics (`jsSet`:
  overwrite in place if present, else append) and lookup (`jsGet`).
* Fallible code (`throw new Error(...)`) is modelled with `Except String`.
* `Number(s)` is modelled by `jsNumber`, an executable model of JS string to
  number conversion covering the decimal grammar (optional sign, digits,
  fraction, exponent), `Infinity` and the empty-string-is-zero rule; finite
  results are carried exactly as rationals and treated opaquely (IEEE
  rounding and the hex/octal/binary literal forms are not modelled; no claim
  depends on them).
-/

deriving instance DecidableEq for Except

/-- ASCII uppercase of a string (model of JS `toUpperCase` for the ASCII
inputs this library handles), character by character. -/
def asciiToUpper (s : String) : String := ⟨s.data.map Char.toUpper⟩

/-- ASCII lowercase of a string (model of JS `toLowerCase`). -/
def asciiToLower (s : String) : String := ⟨s.data.map Char.toLower⟩

/-- Model of JS `String.prototype.trim`: leading and trailing whitespace
removed (character-list based, so proofs can evaluate it). -/
def strTrim (s : String) : String :=
  ⟨((s.data.dropWhile Char.isWhitespace).reverse.dropWhile Char.isWhitespace).reverse⟩

/-- Model of JS `String.prototype.split` with a one-character separator:
`"a,,b".split(",") = ["a", "", "b"]` and `"".split(",") = [""]`. -/
def splitOnCharAux (c : Char) : List Char → List Char → List String
  | [], acc => [⟨acc.reverse⟩]
  | d :: ds, acc =>
    if d = c then ⟨acc.reverse⟩ :: splitOnCharAux c ds []
    else splitOnCharAux c ds (d :: acc)

/-- See `splitOnCharAux`. -/
def splitOnChar (c : Char) (s : String) : List String :=
  splitOnCharAux c s.data []

/-- Does the string start with the given character (the `#`
placeholder-marker test). -/
def startsWithChar (c : Char) (s : String) : Bool :=
  match s.data with
  | d :: _ => d = c
  | [] => false

/-- JS `slice(1)`: drop the first character. -/
def strDrop1 (s : String) : String := ⟨s.data.drop 1⟩

/-- Does the string contain the given character. -/
def strContainsChar (c : Char) (s : String) : Bool := s.data.contains c

/-- Result of JavaScript `Number(string)`: `NaN`, an infinity, or a finite
value, carried exactly in mantissa–decimal-exponent form (the value is
`mant * 10 ^ exp`); finite values are treated opaquely by this development,
so no arithmetic normalization is needed. -/
inductive JsNum where
  | nan
  | posInf
  | negInf
  | finite (mant : ℤ) (exp : ℤ)
deriving DecidableEq

/-- JS `isNaN` on a `Number(…)` result. -/
def JsNum.isNN : JsNum → Bool
  | .nan => true
  | _ => false

/-- JS `Number.isFinite` on a `Number(…)` result. -/
def JsNum.isFin : JsNum → Bool
  | .finite _ _ => true
  | _ => false

/-- Numeric value of a list of decimal digit characters, most significant
first (the usual positional reading). -/
def digitsVal (ds : List Char) : ℕ :=
  ds.foldl (fun a c => 10 * a + (c.toNat - 48)) 0

/-- Decimal-literal part of the JS `StringNumericLiteral` grammar:
`digits [. digits] [e|E [sign] digits]`, requiring at least one digit in the
integer-plus-fraction part and no trailing characters; yields the value in
mantissa–exponent form. -/
def jsParseDec (cs : List Char) : Option (ℤ × ℤ) :=
  let ip := cs.takeWhile Char.isDigit
  let r1 := cs.dropWhile Char.isDigit
  let fp := match r1 with
    | '.' :: rest => rest.takeWhile Char.isDigit
    | _ => []
  let r2 := match r1 with
    | '.' :: rest => rest.dropWhile Char.isDigit
    | _ => r1
  if ip.isEmpty && fp.isEmpty then none
  else
    let mant : ℤ := (digitsVal (ip ++ fp) : ℤ)
    let e0 : ℤ := -(fp.length : ℤ)
    match r2 with
    | [] => some (mant, e0)
    | e :: rest =>
      if e = 'e' ∨ e = 'E' then
        let eneg := match rest with
          | '-' :: _ => true
          | _ => false
        let r3 := match rest with
          | '+' :: t => t
          | '-' :: t => t
          | t => t
        let ed := r3.takeWhile Char.isDigit
        let r4 := r3.dropWhile Char.isDigit
        if ed.isEmpty ∨ ¬r4.isEmpty then none
        else if eneg then some (mant, e0 - (digitsVal ed : ℤ))
        else some (mant, e0 + (digitsVal ed : ℤ))
      else none

/-- Model of JavaScript `Number(string)` (see module docstring for the
modelled fragment). -/
def jsNumber (raw : String) : JsNum :=
  let s := strTrim raw
  if s.isEmpty then .finite 0 0
  else
    let neg := match s.data with
      | '-' :: _ => true
      | _ => false
    let cs := match s.data with
      | '-' :: t => t
      | '+' :: t => t
      | t => t
    if cs = "Infinity".data then (if neg then .negInf else .posInf)
    else
      match jsParseDec cs with
      | some (m, e) => .finite (if neg then -m else m) e
      | none => .nan

/-- Runtime values produced by the wrapper's value coercion: the payloads that
end up in `ExpressionAttributeValues` / key maps. `jsUndefined` models JS
`undefined` (reachable only through the unchecked `filter.value!` access in
the scalar CONTAINS branch). `jsonRaw` carries the raw text of a successful
`JSON.parse` opaquely and `binList` the base64 chunks of a binary set; no
claim depends on the `M`/`L`/`BS` branches. -/
inductive DVal where
  | str (s : String)
  | num (n : JsNum)
  | bool (b : Bool)
  | null
  | jsUndefined
  | numList (l : List JsNum)
  | strList (l : List String)
  | jsonRaw (s : String)
  | binList (l : List String)
deriving DecidableEq

/-- `DynamoFilterValueType` from `src/types/filter.types.ts`:
`z.enum(['S', 'N', 'BOOL', 'NULL', 'SS', 'NS'])`. -/
inductive FType where
  | S
  | N
  | BOOL
  | NULL
  | SS
  | NS
deriving DecidableEq

/-- The string the enum value renders as in JS template literals. -/
def FType.toStr : FType → String
  | .S => "S"
  | .N => "N"
  | .BOOL => "BOOL"
  | .NULL => "NULL"
  | .SS => "SS"
  | .NS => "NS"

/-- `DynamoFilterCondition` from `src/types/filter.types.ts`. -/
inductive FCond where
  | EQUAL_TO
  | NOT_EQUAL_TO
  | LESS_THAN
  | LESS_THAN_OR_EQUAL_TO
  | GREATER_THAN
  | GREATER_THAN_OR_EQUAL_TO
  | EXISTS
  | NOT_EXISTS
  | BEGINS_WITH
  | CONTAINS
  | NOT_CONTAINS
  | BETWEEN
deriving DecidableEq

/-- The string the condition renders as in JS template literals. -/
def FCond.toStr : FCond → String
  | .EQUAL_TO => "EQUAL_TO"
  | .NOT_EQUAL_TO => "NOT_EQUAL_TO"
  | .LESS_THAN => "LESS_THAN"
  | .LESS_THAN_OR_EQUAL_TO => "LESS_THAN_OR_EQUAL_TO"
  | .GREATER_THAN => "GREATER_THAN"
  | .GREATER_THAN_OR_EQUAL_TO => "GREATER_THAN_OR_EQUAL_TO"
  | .EXISTS => "EXISTS"
  | .NOT_EXISTS => "NOT_EXISTS"
  | .BEGINS_WITH => "BEGINS_WITH"
  | .CONTAINS => "CONTAINS"
  | .NOT_CONTAINS => "NOT_CONTAINS"
  | .BETWEEN => "BETWEEN"

/-- `DynamoFilter` from `src/types/filter.types.ts` (optional operand fields
modelled as `Option`; JS `undefined` is `none`). -/
structure DynamoFilter where
  name : String
  type : FType
  condition : FCond
  value : Option String := none
  value2 : Option String := none
  values : Option (List String) := none
deriving DecidableEq

/-- The `dynamoFilterSch` validation from `src/types/filter.types.ts`:
field constraints (`name` non-empty; `values`, when present, a non-empty
array of non-empty strings) plus the `superRefine` rules (EXISTS/NOT_EXISTS
carry no operand; BETWEEN carries `value` and `value2` and no `values`;
an SS/NS filter with any other condition carries `values` only; every other
condition carries `value` only). Zod's parse succeeds exactly when no check
fails. -/
def isValidDynamoFilter (f : DynamoFilter) : Bool :=
  !f.name.isEmpty
    && (match f.values with
      | none => true
      | some vs => vs.length ≥ 1 && vs.all (fun v => !v.isEmpty))
    && (let hasValue := f.value.isSome
        let hasValue2 := f.value2.isSome
        let hasValues := match f.values with
          | some vs => vs.length > 0
          | none => false
        match f.condition with
        | .EXISTS => !(hasValue || hasValue2 || hasValues)
        | .NOT_EXISTS => !(hasValue || hasValue2 || hasValues)
        | .BETWEEN => hasValue && hasValue2 && !hasValues
        | _ =>
          if f.type = .SS ∨ f.type = .NS then hasValues && !hasValue && !hasValue2
          else hasValue && !hasValue2 && !hasValues)

/-- `parseValueByType` from `src/filters/filter-expression.ts`: parse a raw
string value into the appropriate DynamoDB type. -/
def parseValueByType (type : FType) (raw : String) : Except String DVal :=
  match type with
  | .S => .ok (.str raw)
  | .N =>
    let n := jsNumber raw
    if ¬n.isFin then .error ("Invalid numeric value \"" ++ raw ++ "\" for type N")
    else .ok (.num n)
  | .BOOL =>
    let normalized := asciiToLower (strTrim raw)
    if normalized = "true" ∨ normalized = "1" then .ok (.bool true)
    else if normalized = "false" ∨ normalized = "0" then .ok (.bool false)
    else .error ("Invalid boolean value \"" ++ raw ++ "\" for type BOOL")
  | .NULL => .ok .null
  | _ => .ok (.str raw)

/-- `parseValueByType` applied to JS `undefined` (the `filter.value!` access
in the scalar CONTAINS branch when no value was supplied): `S` and the
default branch return `undefined` itself, `N` sees `Number(undefined) = NaN`,
`BOOL` crashes calling `.trim()` on `undefined`. -/
def parseValueByTypeUndef (type : FType) : Except String DVal :=
  match type with
  | .S => .ok .jsUndefined
  | .N => .error "Invalid numeric value \"undefined\" for type N"
  | .BOOL => .error "TypeError: Cannot read properties of undefined (reading 'trim')"
  | .NULL => .ok .null
  | _ => .ok .jsUndefined

/-- `parseSetElement` from `src/filters/filter-expression.ts`: strict
per-element coercion used by the CONTAINS / NOT_CONTAINS set paths. -/
def parseSetElement (type : FType) (raw : String) : Except String DVal :=
  if type = .SS then .ok (.str raw)
  else if type = .NS then
    let n := jsNumber raw
    if ¬n.isFin then .error ("Invalid numeric value \"" ++ raw ++ "\" for type NS element")
    else .ok (.num n)
  else parseValueByType type raw

/-- `parseDynamoKeyValue` from the key-value parsing utility: parses a
partition or sort key value based on its type tag. `M`/`L` model a
successful `JSON.parse` opaquely (see `DVal.jsonRaw`). -/
def parseDynamoKeyValue (key : String) (keyType : String) : Except String DVal :=
  match keyType with
  | "S" => .ok (.str key)
  | "N" => .ok (.num (jsNumber key))
  | "BOOL" => .ok (.bool (asciiToLower key = "true"))
  | "NULL" => .ok .null
  | "M" => .ok (.jsonRaw key)
  | "L" => .ok (.jsonRaw key)
  | "SS" => .ok (.strList ((splitOnChar ',' key).map strTrim))
  | "NS" =>
    .ok (.numList (((splitOnChar ',' key).map (fun item => jsNumber (strTrim item))).filter
      (fun num => !num.isNN)))
  | "BS" => .ok (.binList ((splitOnChar ',' key).map strTrim))
  | _ => .error ("Unsupported partitionKeyType: " ++ keyType)

/-- Decimal digit characters of `n`, most significant first, computed with
explicit fuel so that the definition is structurally recursive (the fuel
`n + 1` always suffices, see `digitsVal_natDigitsAux`). -/
def natDigitsAux : ℕ → ℕ → List Char
  | 0, _ => []
  | fuel + 1, n =>
    if n < 10 then [Nat.digitChar n]
    else natDigitsAux fuel (n / 10) ++ [Nat.digitChar (n % 10)]

/-- Decimal rendering of a natural number, as produced by a JS template
literal interpolating a number. -/
def natToString (n : ℕ) : String :=
  ⟨natDigitsAux (n + 1) n⟩

/-- JS object property lookup on an association-list model of an object. -/
def jsGet {α : Type} (m : List (String × α)) (k : String) : Option α :=
  match m with
  | [] => none
  | (k', v) :: t => if k' = k then some v else jsGet t k

/-- JS object property assignment: overwrite in place if present (keeping the
original insertion position), else append. -/
def jsSet {α : Type} (m : List (String × α)) (k : String) (v : α) : List (String × α) :=
  match m with
  | [] => [(k, v)]
  | (k', v') :: t => if k' = k then (k', v) :: t else (k', v') :: jsSet t k v

/-- JS object spread `{ ...base, ...extra }`: assign all of `base` then all of
`extra` into a fresh object. -/
def jsMerge {α : Type} (base extra : List (String × α)) : List (String × α) :=
  (base ++ extra).foldl (fun m kv => jsSet m kv.1 kv.2) []

/-- `makeNameToken` from `generateDynamoFilterAttributes`: `` `#f${i}` ``. -/
def makeNameToken (i : ℕ) : String :=
  "#f" ++ natToString i

/-- `makeValueToken` from `generateDynamoFilterAttributes`:
`` `:f${i}${suffix}` ``. -/
def makeValueToken (i : ℕ) (suffix : String) : String :=
  ":f" ++ natToString i ++ suffix

/-- `requireValue` from `src/filters/filter-expression.ts`. -/
def requireValue (f : DynamoFilter) (i : ℕ) : Except String String :=
  match f.value with
  | some v => .ok v
  | none => .error (f.condition.toStr ++ " requires value for filter[" ++ natToString i ++ "]")

/-- The `for (let j = 0; …)` loops of the CONTAINS / NOT_CONTAINS set paths:
for each element `vals[j]` produce the `contains(#f{i}, :f{i}vs{j})` fragment
and the `(:f{i}vs{j}, coerced element)` value entry, failing at the first
element `parseSetElement` rejects. -/
def setElemLoop (t : FType) (i : ℕ) : ℕ → List String →
    Except String (List String × List (String × DVal))
  | _, [] => .ok ([], [])
  | j, v :: rest => do
    let pv ← parseSetElement t v
    let (ps, es) ← setElemLoop t i (j + 1) rest
    .ok (("contains(" ++ makeNameToken i ++ ", " ++ makeValueToken i ("vs" ++ natToString j) ++ ")") :: ps,
      (makeValueToken i ("vs" ++ natToString j), pv) :: es)

/-- The body of the `switch (filter.condition)` in
`generateDynamoFilterAttributes` for the filter at index `i`: the expression
fragment pushed onto `parts` and the `(token, value)` entries assigned into
`expressionAttributeValues`, in assignment order. -/
def compileFilter (i : ℕ) (f : DynamoFilter) : Except String (String × List (String × DVal)) :=
  let nameToken := makeNameToken i
  match f.condition with
  | .EXISTS => .ok ("(attribute_exists(" ++ nameToken ++ "))", [])
  | .NOT_EXISTS => .ok ("(attribute_not_exists(" ++ nameToken ++ "))", [])
  | .BEGINS_WITH =>
    if f.type ≠ .S then
      .error ("BEGINS_WITH is only valid for type S (filter[" ++ natToString i ++ "] has type "
        ++ f.type.toStr ++ ")")
    else do
      let raw ← requireValue f i
      let pv ← parseValueByType f.type raw
      let value := makeValueToken i "v"
      .ok ("begins_with(" ++ nameToken ++ ", " ++ value ++ ")", [(value, pv)])
  | .CONTAINS =>
    if f.type = .SS ∨ f.type = .NS then
      match f.values with
      | none =>
        .error ("CONTAINS with " ++ f.type.toStr ++ " requires values[] (non-empty) for filter["
          ++ natToString i ++ "]")
      | some [] =>
        .error ("CONTAINS with " ++ f.type.toStr ++ " requires values[] (non-empty) for filter["
          ++ natToString i ++ "]")
      | some vals => do
        let (orParts, es) ← setElemLoop f.type i 0 vals
        let joined := if orParts.length = 1 then orParts.headD ""
          else "(" ++ String.intercalate " OR " orParts ++ ")"
        .ok ("(" ++ joined ++ ")", es)
    else do
      let pv ← match f.value with
        | some v => parseValueByType f.type v
        | none => parseValueByTypeUndef f.type
      let value := makeValueToken i "v"
      .ok ("(contains(" ++ nameToken ++ ", " ++ value ++ "))", [(value, pv)])
  | .NOT_CONTAINS =>
    if f.type = .SS ∨ f.type = .NS then
      match f.values with
      | none =>
        .error ("NOT_CONTAINS with " ++ f.type.toStr ++ " requires values[] (non-empty) for filter["
          ++ natToString i ++ "]")
      | some [] =>
        .error ("NOT_CONTAINS with " ++ f.type.toStr ++ " requires values[] (non-empty) for filter["
          ++ natToString i ++ "]")
      | some vals => do
        let (orParts, es) ← setElemLoop f.type i 0 vals
        .ok ("(NOT (" ++ String.intercalate " OR " orParts ++ "))", es)
    else do
      let raw ← requireValue f i
      let pv ← parseValueByType f.type raw
      let value := makeValueToken i "v"
      .ok ("NOT contains(" ++ nameToken ++ ", " ++ value ++ ")", [(value, pv)])
  | .BETWEEN =>
    match f.value, f.value2 with
    | some v1, some v2 =>
      if f.type = .SS ∨ f.type = .NS ∨ f.type = .BOOL ∨ f.type = .NULL then
        .error ("BETWEEN is not valid for type " ++ f.type.toStr ++ " (filter["
          ++ natToString i ++ "])")
      else do
        let p1 ← parseValueByType f.type v1
        let p2 ← parseValueByType f.type v2
        let t1 := makeValueToken i "v"
        let t2 := makeValueToken i "v2"
        .ok ("(" ++ nameToken ++ " BETWEEN " ++ t1 ++ " AND " ++ t2 ++ ")", [(t1, p1), (t2, p2)])
    | _, _ => .error ("BETWEEN requires value and value2 for filter[" ++ natToString i ++ "]")
  | c =>
    if f.type = .SS ∨ f.type = .NS then
      .error ("Comparator \"" ++ c.toStr ++ "\" is not supported for " ++ f.type.toStr
        ++ "; use CONTAINS/NOT_CONTAINS")
    else do
      let raw ← requireValue f i
      let pv ← parseValueByType f.type raw
      let v := makeValueToken i "v"
      let op := match c with
        | .EQUAL_TO => "="
        | .NOT_EQUAL_TO => "<>"
        | .LESS_THAN => "<"
        | .LESS_THAN_OR_EQUAL_TO => "<="
        | .GREATER_THAN => ">"
        | _ => ">="
      .ok ("(" ++ nameToken ++ " " ++ op ++ " " ++ v ++ ")", [(v, pv)])

/-- Result record of `generateDynamoFilterAttributes`. -/
structure GeneratedDynamoFilterAttributes where
  filterExpression : String
  expressionAttributeNames : List (String × String)
  expressionAttributeValues : List (String × DVal)
deriving DecidableEq

/-- The `for (let i = 0; …)` loop of `generateDynamoFilterAttributes`: assign
the name token, compile the filter at index `i`, assign its value entries,
push its fragment. -/
def genLoop : ℕ → List DynamoFilter → List (String × String) → List (String × DVal) →
    List String → Except String (List String × List (String × String) × List (String × DVal))
  | _, [], names, vals, parts => .ok (parts, names, vals)
  | i, f :: rest, names, vals, parts => do
    let names' := jsSet names (makeNameToken i) f.name
    let (frag, ventries) ← compileFilter i f
    let vals' := ventries.foldl (fun m kv => jsSet m kv.1 kv.2) vals
    genLoop (i + 1) rest names' vals' (parts ++ [frag])

/-- `generateDynamoFilterAttributes` from `src/filters/filter-expression.ts`:
`null` for an empty filter list, otherwise the joined expression with its
name and value maps (errors propagate, as the source rethrows). -/
def generateDynamoFilterAttributes (filters : List DynamoFilter) :
    Except String (Option GeneratedDynamoFilterAttributes) :=
  if filters.length = 0 then .ok none
  else do
    let (parts, names, vals) ← genLoop 0 filters [] [] []
    .ok (some ⟨String.intercalate " AND " parts, names, vals⟩)

/-- JS truthiness of an optional string (`undefined` and `""` are falsy). -/
def jsTruthy : Option String → Bool
  | none => false
  | some s => ¬s.isEmpty

/-- `getOperatorSymbolByKey` from `src/utils/query-request/comparator.ts`:
normalize a comparator spelling to its canonical symbol, throwing
`Invalid operation key` on anything unrecognized. -/
def getOperatorSymbolByKey (operation : String) : Except String String :=
  match asciiToUpper operation with
  | "BETWEEN" => .ok "BETWEEN"
  | "BEGINS_WITH" => .ok "BEGINS_WITH"
  | "GREATER_THAN" => .ok ">"
  | ">" => .ok ">"
  | "LESS_THAN" => .ok "<"
  | "<" => .ok "<"
  | "GREATER_THAN_OR_EQUAL" => .ok ">="
  | ">=" => .ok ">="
  | "LESS_THAN_OR_EQUAL" => .ok "<="
  | "<=" => .ok "<="
  | "EQUAL" => .ok "="
  | "=" => .ok "="
  | _ => .error ("Invalid operation key: " ++ operation)

/-- `DynamoQueryRequest` from `src/types/dynamo-query-request.types.ts`
(the zod-inferred shape; key types and comparators kept as strings, as at
runtime). The pagination cursor is carried opaquely. -/
structure DynamoQueryRequest where
  pKey : String
  pKeyType : String
  pKeyProp : String
  sKey : Option String := none
  sKeyType : Option String := none
  sKeyProp : Option String := none
  skValue2 : Option String := none
  skValue2Type : Option String := none
  skComparator : Option String := none
  indexName : Option String := none
  limit : Option ℕ := none
  lastEvaluatedKey : Option (List (String × DVal)) := none
  sorting : Option String := none
deriving DecidableEq

/-- The `dynamoQueryRequestSch` validation from
`src/types/dynamo-query-request.types.ts`: field-shape checks (required keys
non-empty and of key type `S`/`N`/`B`, comparator from the enum, sorting from
the enum) plus the `superRefine` rules (sort-key fields require the
comparator and vice versa; `skValue2`/`skValue2Type` exactly for `BETWEEN`).
A request passing this predicate is what the spec calls a validated query
request. -/
def isValidDynamoQueryRequest (q : DynamoQueryRequest) : Bool :=
  !q.pKey.isEmpty && ["S", "N", "B"].contains q.pKeyType && !q.pKeyProp.isEmpty
    && (match q.sKeyType with
      | none => true
      | some t => ["S", "N", "B"].contains t)
    && (match q.skValue2Type with
      | none => true
      | some t => ["S", "N", "B"].contains t)
    && (match q.sorting with
      | none => true
      | some s => ["ASC", "DESC"].contains s)
    && (match q.skComparator with
      | some c =>
        ["=", "<", "<=", ">", ">=", "BETWEEN", "BEGINS_WITH"].contains c
          && jsTruthy q.sKey && jsTruthy q.sKeyProp && q.sKeyType.isSome
          && (if c = "BETWEEN" then jsTruthy q.skValue2 && q.skValue2Type.isSome
            else !(jsTruthy q.skValue2 || q.skValue2Type.isSome))
      | none =>
        !(jsTruthy q.sKey || jsTruthy q.sKeyProp || q.sKeyType.isSome
          || jsTruthy q.skValue2 || q.skValue2Type.isSome))

/-- `createKeyConditionExpression` from
`src/utils/query-request/comparator.ts`. -/
def createKeyConditionExpression (queryRequest : DynamoQueryRequest) : Except String String :=
  let keyConditionExpression := "#pk = :pk"
  if ¬jsTruthy queryRequest.sKey then .ok keyConditionExpression
  else do
    let sym ← getOperatorSymbolByKey (queryRequest.skComparator.getD "=")
    match sym with
    | "<" => .ok (keyConditionExpression ++ " AND #sk < :sk")
    | ">" => .ok (keyConditionExpression ++ " AND #sk > :sk")
    | "<=" => .ok (keyConditionExpression ++ " AND #sk <= :sk")
    | ">=" => .ok (keyConditionExpression ++ " AND #sk >= :sk")
    | "BEGINS_WITH" =>
      if ¬jsTruthy queryRequest.sKey then .error "BEGINS_WITH operation requires sortKey."
      else .ok (keyConditionExpression ++ " AND begins_with(#sk, :skValue2)")
    | "BETWEEN" =>
      if ¬jsTruthy queryRequest.sKey ∨ ¬jsTruthy queryRequest.skValue2 then
        .error "BETWEEN operation requires both sk and skValue2."
      else .ok (keyConditionExpression ++ " AND #sk BETWEEN :sk AND :skValue2")
    | _ => .ok (keyConditionExpression ++ " AND #sk = :sk")

/-- `extractExpAttributeNamesFromExpression` from
`src/utils/expression-attribute-names.ts`: every comma-separated item that
starts with `#` maps to its unprefixed form. -/
def extractExpAttributeNamesFromExpression (expression : String) : List (String × String) :=
  (splitOnChar ',' expression).foldl
    (fun result raw =>
      let attr := strTrim raw
      if startsWithChar '#' attr then jsSet result attr (strDrop1 attr) else result)
    []

/-- Modelled from the spec: the repository imports `RESERVED_KEYWORDS_SET`
from `./reserved-keywords-data`, a file not present in the provided sources.
The spec describes it as "a static reserved-keyword set (case-insensitive
membership test)" and the source's own doc example treats `size` and `name`
as reserved. Modelled as a lowercase list of DynamoDB reserved words
sufficient for the claims; all theorems about the rewriters hold for any
such lowercase set. -/
def RESERVED_KEYWORDS : List String :=
  ["set", "size", "name", "status", "type", "value", "count", "comment", "timestamp"]

/-- JS regex `\s` character class (ASCII portion). -/
def jsIsSpace (c : Char) : Bool :=
  c = ' ' || c = '\t' || c = '\n' || c = '\r' || c = '\x0b' || c = '\x0c' 

/-- JS regex word character `\w` / word-boundary alphabet: `[A-Za-z0-9_]`. -/
def isWordChar (c : Char) : Bool :=
  c.isAlphanum || c = '_'

/-- The lookahead `(?=\s*=)` of the update-expression reserved-word regex:
after optional whitespace the next character is `=`. -/
def followedByEq (rest : List Char) : Bool :=
  match rest.dropWhile jsIsSpace with
  | '=' :: _ => true
  | _ => false

/-- Emit one maximal word run: prefixed with `#` exactly when the regex
`\b(?:kw…)\b(?=\s*=)` (case-insensitive) matches it, i.e. when its lowercase
form is a reserved keyword and the lookahead succeeds. -/
def flushRun (kws : List String) (run : List Char) (rest : List Char) : List Char :=
  if run.isEmpty then []
  else if kws.contains (asciiToLower ⟨run⟩) && followedByEq rest then '#' :: run
  else run

/-- Character-level model of
`updateExpression.replace(UPDATE_RESERVED_REGEX, m => '#' + m)`: scan the
string once, accumulating maximal `\w` runs; because every keyword consists
of word characters and is bracketed by `\b` in the regex, a match is exactly
a maximal word run whose lowercase form is in the set and which passes the
`(?=\s*=)` lookahead. -/
def aliasUpdateAux (kws : List String) (acc : List Char) : List Char → List Char
  | [] => flushRun kws acc []
  | c :: cs =>
    if isWordChar c then aliasUpdateAux kws (acc ++ [c]) cs
    else flushRun kws acc (c :: cs) ++ c :: aliasUpdateAux kws [] cs

/-- `replaceReservedKeywordsFromUpdateExp` from
`src/types/dynamo-query-request.types.ts` (the update-expression form of
reserved-word aliasing): single case-insensitive pass prefixing every
whole-word reserved keyword that is followed, after optional whitespace,
by `=`. -/
def replaceReservedKeywordsFromUpdateExp (updateExpression : String) : String :=
  ⟨aliasUpdateAux RESERVED_KEYWORDS [] updateExpression.data⟩

/-- `replaceReservedKeywordsFromProjection` from the same module: split on
commas, prefix a trimmed item exactly when its lowercase form is reserved,
re-join with `", "`. -/
def replaceReservedKeywordsFromProjection (projection : String) : String :=
  String.intercalate ", " ((splitOnChar ',' projection).map (fun item =>
    let trimmed := strTrim item
    if trimmed.isEmpty then trimmed
    else if RESERVED_KEYWORDS.contains (asciiToLower trimmed) then "#" ++ trimmed
    else trimmed))

/-- Model of `expression.replace(/^\s*SET\s+/i, '')`: drop a leading
optional-whitespace–`SET`–mandatory-whitespace prefix when present. -/
def stripLeadingSET (s : String) : String :=
  let cs := s.data
  let r1 := cs.dropWhile jsIsSpace
  match r1 with
  | a :: b :: c :: rest =>
    if a.toLower = 's' && b.toLower = 'e' && c.toLower = 't' then
      match rest with
      | d :: _ => if jsIsSpace d then ⟨rest.dropWhile jsIsSpace⟩ else ⟨cs⟩
      | [] => ⟨cs⟩
    else ⟨cs⟩
  | _ => ⟨cs⟩

/-- `extractExpAttributeNamesFromUpdateExp` from
`src/utils/expression-attribute-names.ts`. -/
def extractExpAttributeNamesFromUpdateExp (expression : String) : List (String × String) :=
  let body := strTrim (stripLeadingSET expression)
  if body.isEmpty then []
  else
    (splitOnChar ',' body).foldl
      (fun result assignment =>
        let leftSide := strTrim ((splitOnChar '=' assignment).headD "")
        if leftSide.isEmpty || ¬startsWithChar '#' leftSide then result
        else jsSet result leftSide (strDrop1 leftSide))
      []

/-- The `do { candidate = `:{field}_update_{counter++}` } while (taken)`
probe of `buildUpdateCommandInput`, with explicit fuel (`vals.length + 1`
always finds a free token, see `probeLoop_free`). -/
def probeLoop (field : String) (vals : List (String × DVal)) : ℕ → ℕ → String
  | 0, n => ":" ++ field ++ "_update_" ++ natToString n
  | fuel + 1, n =>
    let candidate := ":" ++ field ++ "_update_" ++ natToString n
    if (jsGet vals candidate).isSome then probeLoop field vals fuel (n + 1)
    else candidate

/-- One iteration of the `for (const field in itemRecord)` loop of
`buildUpdateCommandInput`: pick the value token (the plain `:{field}`, or the
first free `:{field}_update_{n}` when that is already taken), record the
assignment fragment, store the value. -/
def processUpdateField (vals : List (String × DVal)) (field : String) (v : DVal) :
    String × List (String × DVal) :=
  let valueKey :=
    if (jsGet vals (":" ++ field)).isSome then probeLoop field vals (vals.length + 1) 1
    else ":" ++ field
  (field ++ " = " ++ valueKey, jsSet vals valueKey v)

/-- The whole `for (const field in itemRecord)` loop: fold
`processUpdateField` over the item's fields in iteration order. -/
def genUpdateLoop : List (String × DVal) → List String → List (String × DVal) →
    List String × List (String × DVal)
  | [], parts, vals => (parts, vals)
  | (field, v) :: rest, parts, vals =>
    let (frag, vals') := processUpdateField vals field v
    genUpdateLoop rest (parts ++ [frag]) vals'

/-- `CustomUpdateCommandInput`: the higher-level input shape of
`buildUpdateCommandInput`. -/
structure CustomUpdateCommandInput where
  tableName : String
  key : List (String × DVal)
  conditionExpression : Option String := none
  returnValues : Option String := none
  returnConsumedCapacity : Option String := none
  returnItemCollectionMetrics : Option String := none
  expressionAttributeNames : Option (List (String × String)) := none
  extraExpAttributeNames : Option (List (String × String)) := none
  expressionAttributeValues : Option (List (String × DVal)) := none
  extraExpAttributeValues : Option (List (String × DVal)) := none
  updateExpression : Option String := none
  item : Option (List (String × DVal)) := none
deriving DecidableEq

/-- The AWS-SDK `UpdateCommandInput` fields this builder produces. -/
structure UpdateCommandInput where
  tableName : String
  key : List (String × DVal)
  conditionExpression : Option String
  returnValues : String
  returnConsumedCapacity : Option String
  returnItemCollectionMetrics : Option String
  expressionAttributeNames : Option (List (String × String)) := none
  expressionAttributeValues : Option (List (String × DVal)) := none
  updateExpression : Option String := none
deriving DecidableEq

/-- `buildUpdateCommandInput` from the update command builder: merge
caller names/values, then either use the explicit update expression (mode 1)
or generate a `SET` expression from `item` with token-collision avoidance,
reserved-word aliasing, and auto-extracted names (mode 2). -/
def buildUpdateCommandInput (input : CustomUpdateCommandInput) : Except String UpdateCommandInput :=
  let names := ((input.expressionAttributeNames.getD []) ++ (input.extraExpAttributeNames.getD [])).foldl
    (fun m kv => jsSet m kv.1 kv.2) []
  let values := ((input.expressionAttributeValues.getD []) ++ (input.extraExpAttributeValues.getD [])).foldl
    (fun m kv => jsSet m kv.1 kv.2) []
  if jsTruthy input.updateExpression then
    .ok {
      tableName := input.tableName
      key := input.key
      conditionExpression := input.conditionExpression
      returnValues := input.returnValues.getD "NONE"
      returnConsumedCapacity := input.returnConsumedCapacity
      returnItemCollectionMetrics := input.returnItemCollectionMetrics
      expressionAttributeNames := if names.length > 0 then some names else none
      expressionAttributeValues := if values.length > 0 then some values else none
      updateExpression := input.updateExpression
    }
  else
    match input.item with
    | none => .error "Either updateExpression or item with at least one field must be provided."
    | some item =>
      if item.length = 0 then
        .error "Either updateExpression or item with at least one field must be provided."
      else
        let (updateParts, values') := genUpdateLoop item [] values
        let rawExpression := "SET " ++ String.intercalate ", " updateParts
        let updateExpression := replaceReservedKeywordsFromUpdateExp rawExpression
        let autoNames := extractExpAttributeNamesFromUpdateExp updateExpression
        let names' := autoNames.foldl
          (fun m kv => if (jsGet m kv.1).isSome then m else jsSet m kv.1 kv.2) names
        .ok {
          tableName := input.tableName
          key := input.key
          conditionExpression := input.conditionExpression
          returnValues := input.returnValues.getD "NONE"
          returnConsumedCapacity := input.returnConsumedCapacity
          returnItemCollectionMetrics := input.returnItemCollectionMetrics
          expressionAttributeNames := if names'.length > 0 then some names' else none
          expressionAttributeValues := if values'.length > 0 then some values' else none
          updateExpression := some updateExpression
        }

/-- `CustomQueryCommandInput`: the structured input of
`buildQueryCommandInput`. -/
structure CustomQueryCommandInput where
  tableName : String
  queryRequest : DynamoQueryRequest
  filterExpression : Option String := none
  projectionExpression : Option String := none
  extraExpAttributeNames : Option (List (String × String)) := none
  extraExpAttributeValues : Option (List (String × DVal)) := none
  scanIndexForward : Option Bool := none
  returnConsumedCapacity : Option String := none
deriving DecidableEq

/-- The AWS-SDK `QueryCommandInput` fields this builder produces. -/
structure QueryCommandInput where
  tableName : String
  indexName : Option String
  keyConditionExpression : String
  filterExpression : Option String
  expressionAttributeNames : List (String × String)
  expressionAttributeValues : List (String × DVal)
  projectionExpression : Option String
  scanIndexForward : Option Bool
  returnConsumedCapacity : Option String
  exclusiveStartKey : Option (List (String × DVal))
  limit : Option ℕ
deriving DecidableEq

/-- `buildQueryCommandInput` from the query command builder: generate the
key condition, normalize the projection, assemble the two attribute maps
(base key entries, projection-derived names, caller extras) and the final
command object. Errors thrown by `createKeyConditionExpression` or
`parseDynamoKeyValue` propagate, as in the source. -/
def buildQueryCommandInput (input : CustomQueryCommandInput) : Except String QueryCommandInput := do
  let queryRequest := input.queryRequest
  let keyConditionExpression ← createKeyConditionExpression queryRequest
  let projectionExpression : Option String :=
    if jsTruthy input.projectionExpression then
      some (replaceReservedKeywordsFromProjection (input.projectionExpression.getD ""))
    else none
  let names0 := jsSet [] "#pk" queryRequest.pKeyProp
  let names1 :=
    if jsTruthy queryRequest.sKeyProp then jsSet names0 "#sk" (queryRequest.sKeyProp.getD "")
    else names0
  let names2 :=
    if jsTruthy projectionExpression then
      (extractExpAttributeNamesFromExpression (projectionExpression.getD "")).foldl
        (fun m kv => jsSet m kv.1 kv.2) names1
    else names1
  let expressionAttributeNames := (input.extraExpAttributeNames.getD []).foldl
    (fun m kv => jsSet m kv.1 kv.2) names2
  let pkv ← parseDynamoKeyValue queryRequest.pKey queryRequest.pKeyType
  let vals0 := jsSet [] ":pk" pkv
  let vals1 ←
    if jsTruthy queryRequest.sKey then do
      let skv ← parseDynamoKeyValue (queryRequest.sKey.getD "") (queryRequest.sKeyType.getD "S")
      pure (jsSet vals0 ":sk" skv)
    else pure vals0
  let vals2 ←
    if jsTruthy queryRequest.skValue2 then do
      let s2 ← parseDynamoKeyValue (queryRequest.skValue2.getD "") (queryRequest.sKeyType.getD "S")
      pure (jsSet vals1 ":skValue2" s2)
    else pure vals1
  let expressionAttributeValues := (input.extraExpAttributeValues.getD []).foldl
    (fun m kv => jsSet m kv.1 kv.2) vals2
  .ok {
    tableName := input.tableName
    indexName := queryRequest.indexName
    keyConditionExpression := keyConditionExpression
    filterExpression := input.filterExpression
    expressionAttributeNames := expressionAttributeNames
    expressionAttributeValues := expressionAttributeValues
    projectionExpression := projectionExpression
    scanIndexForward :=
      match queryRequest.sorting with
      | some srt => some (asciiToUpper srt = "ASC")
      | none => input.scanIndexForward
    returnConsumedCapacity := input.returnConsumedCapacity
    exclusiveStartKey := queryRequest.lastEvaluatedKey
    limit := queryRequest.limit
  }

/-- `QueryParseError` from `src/error`: message plus HTTP-like status. -/
structure QueryParseError where
  message : String
  status : ℕ
deriving DecidableEq

/-- Errors `buildScanCommandInput` can raise: the `ZodError` thrown by
`customScanCommandInputSch.parse` when the input fails validation (its issue
list is not modelled — only that the parse throws matters to the claims),
its own `QueryParseError` throws, or a plain error rethrown from
`generateDynamoFilterAttributes`. -/
inductive ScanBuildError where
  | zodError
  | queryParse (e : QueryParseError)
  | other (msg : String)
deriving DecidableEq

/-- `CustomScanCommandInput`: the higher-level input shape of
`buildScanCommandInput`, validated by `customScanCommandInputSch` from the
`types/command.types` module (staged in the repository sources). The
schema's checks beyond this typed shape are embedded as
`isValidCustomScanCommandInput`; on success `z.object(...).parse` returns
the same field values (there are no unknown keys or transforms here). -/
structure CustomScanCommandInput where
  tableName : String
  indexName : Option String := none
  filtersAttributes : Option (List DynamoFilter) := none
  filterExpression : Option String := none
  expressionAttributeNames : Option (List (String × String)) := none
  expressionAttributeValues : Option (List (String × DVal)) := none
  extraExpAttributeNames : Option (List (String × String)) := none
  extraExpAttributeValues : Option (List (String × DVal)) := none
  projectionExpression : Option String := none
  limit : Option ℕ := none
  exclusiveStartKey : Option (List (String × DVal)) := none
  consistentRead : Option Bool := none
  segment : Option ℕ := none
  totalSegments : Option ℕ := none
  returnConsumedCapacity : Option String := none
  returnItemCollectionMetrics : Option String := none
deriving DecidableEq

/-- The `customScanCommandInputSch` validation from `types/command.types`:
field constraints (`filtersAttributes` at most 50 filters, each passing
`dynamoFilterSch`; `limit` and `totalSegments` positive; the two return
enums) plus its `superRefine` (`segment` and `totalSegments` provided
together, `segment < totalSegments` — `segment ≥ 0` and the redundant
`totalSegments > 0` re-check are vacuous on ℕ — and `consistentRead` not
true together with an `indexName`). Zod's parse throws exactly when some
check fails. -/
def isValidCustomScanCommandInput (custom : CustomScanCommandInput) : Bool :=
  (match custom.filtersAttributes with
    | none => true
    | some l => l.length ≤ 50 && l.all isValidDynamoFilter)
    && (match custom.limit with
      | none => true
      | some n => n > 0)
    && (match custom.totalSegments with
      | none => true
      | some n => n > 0)
    && (match custom.returnConsumedCapacity with
      | none => true
      | some s => ["INDEXES", "TOTAL", "NONE"].contains s)
    && (match custom.returnItemCollectionMetrics with
      | none => true
      | some s => ["SIZE", "NONE"].contains s)
    && custom.segment.isSome = custom.totalSegments.isSome
    && (match custom.segment, custom.totalSegments with
      | some s, some t => decide (s < t)
      | _, _ => true)
    && !(jsTruthy custom.indexName && custom.consistentRead = some true)

/-- The AWS-SDK `ScanCommandInput` fields this builder produces. -/
structure ScanCommandInput where
  tableName : String
  indexName : Option String := none
  projectionExpression : Option String := none
  limit : Option ℕ := none
  exclusiveStartKey : Option (List (String × DVal)) := none
  consistentRead : Option Bool := none
  segment : Option ℕ := none
  totalSegments : Option ℕ := none
  returnConsumedCapacity : Option String := none
  returnItemCollectionMetrics : Option String := none
  filterExpression : Option String := none
  expressionAttributeNames : Option (List (String × String)) := none
  expressionAttributeValues : Option (List (String × DVal)) := none
deriving DecidableEq

/-- `mergeAttrValues` / `mergeAttrNames` from the scan builder: `undefined`
when both maps are absent, else `{ ...base, ...extra }` with `extra` taking
precedence. -/
def mergeAttrMaps {α : Type} (base extra : Option (List (String × α))) :
    Option (List (String × α)) :=
  match base, extra with
  | none, none => none
  | _, _ => some (jsMerge (base.getD []) (extra.getD []))

/-- `isNonEmptyObject` from the scan builder, on an optional map. -/
def isNonEmptyObject {α : Type} : Option (List (String × α)) → Bool
  | some l => l.length > 0
  | none => false

/-- The `ScanCommandInput` skeleton the builder assembles before any filter
branch (the conditional spreads of the source). -/
def scanBaseInput (custom : CustomScanCommandInput) : ScanCommandInput :=
  {
    tableName := custom.tableName
    indexName := if jsTruthy custom.indexName then custom.indexName else none
    projectionExpression :=
      if jsTruthy custom.projectionExpression then custom.projectionExpression else none
    limit :=
      match custom.limit with
      | some n => if n ≠ 0 then some n else none
      | none => none
    exclusiveStartKey := custom.exclusiveStartKey
    consistentRead := custom.consistentRead
    segment :=
      if custom.segment.isSome && custom.totalSegments.isSome then custom.segment else none
    totalSegments :=
      if custom.segment.isSome && custom.totalSegments.isSome then custom.totalSegments else none
    returnConsumedCapacity :=
      if jsTruthy custom.returnConsumedCapacity then custom.returnConsumedCapacity else none
    returnItemCollectionMetrics :=
      if jsTruthy custom.returnItemCollectionMetrics then custom.returnItemCollectionMetrics
      else none
  }

/-- The manual-filter-expression branch and the no-filter fallback of
`buildScanCommandInput` (shared verbatim by the full builder and its
dead-branch-free counterpart). -/
def scanManualOrPlain (custom : CustomScanCommandInput) (input : ScanCommandInput) :
    Except ScanBuildError ScanCommandInput :=
  if jsTruthy custom.filterExpression then
    let fe := custom.filterExpression.getD ""
    let mergedNames := mergeAttrMaps custom.expressionAttributeNames custom.extraExpAttributeNames
    let mergedValues :=
      mergeAttrMaps custom.expressionAttributeValues custom.extraExpAttributeValues
    if strContainsChar '#' fe && !isNonEmptyObject mergedNames then
      .error (.queryParse
        ⟨"filterExpression contains name placeholders (#) but ExpressionAttributeNames is missing.",
          400⟩)
    else if strContainsChar ':' fe && !isNonEmptyObject mergedValues then
      .error (.queryParse
        ⟨"filterExpression contains value placeholders (:) but ExpressionAttributeValues is missing.",
          400⟩)
    else
      .ok { input with
        filterExpression := some fe
        expressionAttributeNames := mergedNames
        expressionAttributeValues := mergedValues }
  else
    let n := mergeAttrMaps custom.expressionAttributeNames custom.extraExpAttributeNames
    let v := mergeAttrMaps custom.expressionAttributeValues custom.extraExpAttributeValues
    .ok { input with
      expressionAttributeNames := match n with | some [] => none | x => x
      expressionAttributeValues := match v with | some [] => none | x => x }

/-- `buildScanCommandInput` from the scan builder, embedded with the opening
`customScanCommandInputSch.parse(custom)` (a `ZodError` when validation
fails) and then all four branches of the source in order: the unconditional
guard that throws whenever `filtersAttributes` is non-empty, the
(consequently dead) auto-generation branch, the manual-expression branch,
and the plain fallback. -/
def buildScanCommandInput (custom : CustomScanCommandInput) :
    Except ScanBuildError ScanCommandInput :=
  if ¬isValidCustomScanCommandInput custom then .error .zodError
  else if (match custom.filtersAttributes with | some l => l.length > 0 | none => false : Bool) then
    .error (.queryParse ⟨"Provide either filtersAttributes or filterExpression (not both).", 400⟩)
  else
    let input := scanBaseInput custom
    if (match custom.filtersAttributes with | some l => l.length > 0 | none => false : Bool) then
      match generateDynamoFilterAttributes (custom.filtersAttributes.getD []) with
      | .error e => .error (.other e)
      | .ok none =>
        .error (.queryParse ⟨"Failed to generate filter expression from filtersAttributes.", 400⟩)
      | .ok (some generated) =>
        if generated.filterExpression.isEmpty then
          .error (.queryParse ⟨"Generated filterExpression is empty.", 400⟩)
        else
          .ok { input with
            filterExpression := some generated.filterExpression
            expressionAttributeNames :=
              mergeAttrMaps (some generated.expressionAttributeNames) custom.extraExpAttributeNames
            expressionAttributeValues :=
              mergeAttrMaps (some generated.expressionAttributeValues)
                custom.extraExpAttributeValues }
    else scanManualOrPlain custom input

/-- `buildScanCommandInput` with the auto-generation branch deleted (the
schema parse and every other branch kept verbatim): used to state that that
branch is unreachable in the source. -/
def buildScanCommandInputNoAuto (custom : CustomScanCommandInput) :
    Except ScanBuildError ScanCommandInput :=
  if ¬isValidCustomScanCommandInput custom then .error .zodError
  else if (match custom.filtersAttributes with | some l => l.length > 0 | none => false : Bool) then
    .error (.queryParse ⟨"Provide either filtersAttributes or filterExpression (not both).", 400⟩)
  else scanManualOrPlain custom (scanBaseInput custom)

theorem digitChar_toNat_sub (d : ℕ) (h : d < 10) : (Nat.digitChar d).toNat - 48 = d := by
  interval_cases d <;> rfl

theorem digitsVal_append (ds : List Char) (c : Char) :
    digitsVal (ds ++ [c]) = 10 * digitsVal ds + (c.toNat - 48) := by
  simp [digitsVal, List.foldl_append]

theorem digitsVal_natDigitsAux (f : ℕ) : ∀ n : ℕ, n < 10 ^ f → digitsVal (natDigitsAux f n) = n := by
  induction f with
  | zero =>
    intro n hn
    interval_cases n
    rfl
  | succ f ih =>
    intro n hn
    by_cases h10 : n < 10
    · simp [natDigitsAux, h10, digitsVal, digitChar_toNat_sub n h10]
    · have hdiv : n / 10 < 10 ^ f := by
        rw [Nat.div_lt_iff_lt_mul (by norm_num)]
        calc n < 10 ^ (f + 1) := hn
        _ = 10 ^ f * 10 := by ring
      rw [natDigitsAux]
      simp only [h10, if_false]
      rw [digitsVal_append, ih _ hdiv, digitChar_toNat_sub _ (Nat.mod_lt _ (by norm_num))]
      omega

theorem natToString_inj {m n : ℕ} (h : natToString m = natToString n) : m = n := by
  have hm : m < 10 ^ (m + 1) := lt_of_lt_of_le (Nat.lt_two_pow m)
    (Nat.pow_le_pow_left (by norm_num) m |>.trans (Nat.pow_le_pow_right (by norm_num) (Nat.le_succ m)))
  have hn : n < 10 ^ (n + 1) := lt_of_lt_of_le (Nat.lt_two_pow n)
    (Nat.pow_le_pow_left (by norm_num) n |>.trans (Nat.pow_le_pow_right (by norm_num) (Nat.le_succ n)))
  have hdata : natDigitsAux (m + 1) m = natDigitsAux (n + 1) n := congrArg String.data h
  calc m = digitsVal (natDigitsAux (m + 1) m) := (digitsVal_natDigitsAux _ m hm).symm
  _ = digitsVal (natDigitsAux (n + 1) n) := by rw [hdata]
  _ = n := digitsVal_natDigitsAux _ n hn

theorem string_append_left_cancel {a b c : String} (h : a ++ b = a ++ c) : b = c := by
  apply String.ext
  have := congrArg String.data h
  simp only [String.data_append] at this
  exact List.append_cancel_left this

theorem makeNameToken_inj {i j : ℕ} (h : makeNameToken i = makeNameToken j) : i = j :=
  natToString_inj (string_append_left_cancel h)

theorem jsGet_jsSet_self {α : Type} (m : List (String × α)) (k : String) (v : α) :
    jsGet (jsSet m k v) k = some v := by
  induction m with
  | nil => simp [jsSet, jsGet]
  | cons hd tl ih =>
    by_cases hk : hd.1 = k
    · simp [jsSet, jsGet, hk]
    · simp [jsSet, jsGet, hk, ih]

theorem jsGet_jsSet_ne {α : Type} (m : List (String × α)) {k k' : String} (v : α)
    (h : k ≠ k') : jsGet (jsSet m k v) k' = jsGet m k' := by
  induction m with
  | nil => simp [jsSet, jsGet, h]
  | cons hd tl ih =>
    by_cases hk : hd.1 = k
    · simp [jsSet, jsGet, hk, h]
    · by_cases hk' : hd.1 = k'
      · simp [jsSet, jsGet, hk, hk', Ne.symm h]
      · simp [jsSet, jsGet, hk, hk', ih]

theorem jsSet_fresh {α : Type} {m : List (String × α)} {k : String} (v : α)
    (h : jsGet m k = none) : jsSet m k v = m ++ [(k, v)] := by
  induction m with
  | nil => simp [jsSet]
  | cons hd tl ih =>
    rw [jsGet] at h
    by_cases hk : hd.1 = k
    · simp [hk] at h
    · rw [jsSet]
      simp only [hk, if_false]
      rw [ih (by simpa [hk] using h)]
      simp

theorem jsGet_eq_none_iff {α : Type} (m : List (String × α)) (k : String) :
    jsGet m k = none ↔ k ∉ m.map Prod.fst := by
  induction m with
  | nil => simp [jsGet]
  | cons hd tl ih =>
    by_cases hk : hd.1 = k
    · simp [jsGet, hk]
    · simp [jsGet, hk, ih, Ne.symm hk]

theorem jsGet_append_left {α : Type} {m : List (String × α)} {k : String}
    (h : jsGet m k = none) (m' : List (String × α)) : jsGet (m ++ m') k = jsGet m' k := by
  induction m with
  | nil => simp
  | cons hd tl ih =>
    rw [jsGet] at h
    by_cases hk : hd.1 = k
    · simp [hk] at h
    · rw [List.cons_append, jsGet]
      simp only [hk, if_false]
      exact ih (by simpa [hk] using h)


theorem except_bind_ok {E A B : Type} {e : Except E A} {f : A → Except E B} {b : B}
    (h : e >>= f = .ok b) : ∃ a, e = .ok a ∧ f a = .ok b := by
  cases e with
  | error err => exact absurd h (by simp [Bind.bind, Except.bind])
  | ok a => exact ⟨a, rfl, by simpa [Bind.bind, Except.bind] using h⟩

theorem genLoop_ok (fs : List DynamoFilter) : ∀ (i : ℕ) (names : List (String × String))
    (vals : List (String × DVal)) (parts : List String)
    (out : List String × List (String × String) × List (String × DVal)),
    (∀ j, i ≤ j → jsGet names (makeNameToken j) = none) →
    genLoop i fs names vals parts = .ok out →
    out.2.1 = names ++ (List.range fs.length).map
      (fun k => (makeNameToken (i + k), (fs.getD k ⟨"", .S, .EXISTS, none, none, none⟩).name))
    ∧ ∃ newParts, out.1 = parts ++ newParts ∧ newParts.length = fs.length
      ∧ ∀ k, k < fs.length → ∃ es,
        compileFilter (i + k) (fs.getD k ⟨"", .S, .EXISTS, none, none, none⟩)
          = .ok (newParts.getD k "", es) := by
  induction fs with
  | nil =>
    intro i names vals parts out _ hok
    rw [genLoop] at hok
    cases hok
    exact ⟨by simp, [], by simp, by simp, fun k hk => absurd hk (by simp)⟩
  | cons f rest ih =>
    intro i names vals parts out hfresh hok
    rw [genLoop] at hok
    obtain ⟨fe, hcf, hok⟩ := except_bind_ok hok
    obtain ⟨frag, ventries⟩ := fe
    have hfresh' : ∀ j, i + 1 ≤ j →
        jsGet (jsSet names (makeNameToken i) f.name) (makeNameToken j) = none := by
      intro j hj
      have hne : makeNameToken i ≠ makeNameToken j := by
        intro hc
        have := makeNameToken_inj hc
        omega
      rw [jsGet_jsSet_ne _ _ hne]
      exact hfresh j (by omega)
    obtain ⟨hnames, newParts, hparts, hlen, hcomp⟩ := ih (i + 1) _ _ _ out hfresh' hok
    constructor
    · rw [hnames, jsSet_fresh _ (hfresh i le_rfl)]
      rw [List.append_assoc]
      congr 1
      rw [List.length_cons, List.range_succ_eq_map]
      simp only [List.map_cons, List.map_map, List.singleton_append]
      congr 1
      apply List.map_congr_left
      intro a _
      simp only [Function.comp_apply, List.getD_cons_succ]
      congr 2
      omega
    · refine ⟨frag :: newParts, ?_, by simp [hlen], ?_⟩
      · rw [hparts]
        simp
      · intro k hk
        match k with
        | 0 => exact ⟨ventries, by simpa using hcf⟩
        | k + 1 =>
          obtain ⟨es, hes⟩ := hcomp k (by simpa using hk)
          refine ⟨es, ?_⟩
          have : i + (k + 1) = i + 1 + k := by omega
          simpa [this] using hes

theorem probeToken_inj (field : String) {m n : ℕ}
    (h : ":" ++ field ++ "_update_" ++ natToString m = ":" ++ field ++ "_update_" ++ natToString n) :
    m = n :=
  natToString_inj (string_append_left_cancel h)

theorem probeLoop_succeeds (field : String) (vals : List (String × DVal)) :
    ∀ fuel n, (∃ m, n ≤ m ∧ m < n + fuel
      ∧ jsGet vals (":" ++ field ++ "_update_" ++ natToString m) = none) →
    jsGet vals (probeLoop field vals fuel n) = none := by
  intro fuel
  induction fuel with
  | zero =>
    intro n hm
    obtain ⟨m, hm1, hm2, _⟩ := hm
    omega
  | succ fuel ih =>
    intro n hm
    rw [probeLoop]
    by_cases hc : (jsGet vals (":" ++ field ++ "_update_" ++ natToString n)).isSome
    · simp only [hc, if_true]
      apply ih
      obtain ⟨m, hm1, hm2, hm3⟩ := hm
      refine ⟨m, ?_, by omega, hm3⟩
      rcases Nat.eq_or_lt_of_le hm1 with rfl | h
      · rw [hm3] at hc
        simp at hc
      · omega
    · simp only [hc, if_false]
      simpa using hc

theorem exists_free_probe (field : String) (vals : List (String × DVal)) (n : ℕ) :
    ∃ m, n ≤ m ∧ m < n + (vals.length + 1)
      ∧ jsGet vals (":" ++ field ++ "_update_" ++ natToString m) = none := by
  by_contra hall
  push_neg at hall
  have hmem : ∀ m, n ≤ m → m < n + (vals.length + 1) →
      (":" ++ field ++ "_update_" ++ natToString m) ∈ vals.map Prod.fst := by
    intro m h1 h2
    have := hall m h1 h2
    by_contra hnot
    exact this ((jsGet_eq_none_iff vals _).mpr hnot)
  have hsub : ((List.range' n (vals.length + 1)).map
      (fun m => ":" ++ field ++ "_update_" ++ natToString m)) ⊆ vals.map Prod.fst := by
    intro x hx
    obtain ⟨m, hm, rfl⟩ := List.mem_map.mp hx
    rw [List.mem_range'_1] at hm
    exact hmem m hm.1 hm.2
  have hnodup : ((List.range' n (vals.length + 1)).map
      (fun m => ":" ++ field ++ "_update_" ++ natToString m)).Nodup :=
    (List.nodup_range' _ _).map (fun a b hab => probeToken_inj field hab)
  have := (List.subperm_of_subset hnodup hsub).length_le
  simp at this

theorem processUpdateField_key_free (vals : List (String × DVal)) (field : String) :
    jsGet vals (if (jsGet vals (":" ++ field)).isSome
      then probeLoop field vals (vals.length + 1) 1 else ":" ++ field) = none := by
  by_cases hc : (jsGet vals (":" ++ field)).isSome
  · simp only [hc, if_true]
    exact probeLoop_succeeds field vals _ 1 (exists_free_probe field vals 1)
  · simp only [hc, if_false]
    simpa using hc

theorem processUpdateField_preserves (vals : List (String × DVal)) (field : String) (v : DVal)
    {k : String} {w : DVal} (h : jsGet vals k = some w) :
    jsGet (processUpdateField vals field v).2 k = some w := by
  have hfree := processUpdateField_key_free vals field
  rw [processUpdateField]
  simp only at hfree ⊢
  rw [jsGet_jsSet_ne]
  · exact h
  · intro hc
    rw [hc] at hfree
    rw [hfree] at h
    cases h

theorem genUpdateLoop_preserves (item : List (String × DVal)) :
    ∀ (parts : List String) (vals : List (String × DVal)) (k : String) (w : DVal),
    jsGet vals k = some w → jsGet (genUpdateLoop item parts vals).2 k = some w := by
  induction item with
  | nil =>
    intro parts vals k w h
    simpa [genUpdateLoop] using h
  | cons fv rest ih =>
    intro parts vals k w h
    obtain ⟨field, v⟩ := fv
    rw [genUpdateLoop]
    exact ih _ _ k w (processUpdateField_preserves vals field v h)

theorem isWordChar_ne_space {c : Char} (h : isWordChar c = true) : jsIsSpace c = false := by
  by_contra hs
  simp only [Bool.not_eq_false] at hs
  simp only [jsIsSpace, Bool.or_eq_true, decide_eq_true_eq] at hs
  rcases hs with ((((rfl | rfl) | rfl) | rfl) | rfl) | rfl <;> exact absurd h (by decide)

theorem isWordChar_ne_eq {c : Char} (h : isWordChar c = true) : c ≠ '=' := by
  rintro rfl
  exact absurd h (by decide)

theorem aliasUpdateAux_word_run (kws : List String) :
    ∀ (run acc rest : List Char), (∀ c ∈ run, isWordChar c = true) →
    aliasUpdateAux kws acc (run ++ rest) = aliasUpdateAux kws (acc ++ run) rest := by
  intro run
  induction run with
  | nil => intro acc rest _; simp
  | cons c cs ih =>
    intro acc rest hw
    rw [List.cons_append, aliasUpdateAux]
    rw [if_pos (hw c (by simp))]
    rw [ih (acc ++ [c]) rest (fun d hd => hw d (by simp [hd]))]
    simp

theorem aliasUpdateAux_nonword_step (kws : List String) (acc : List Char) (c : Char)
    (cs : List Char) (h : isWordChar c = false) :
    aliasUpdateAux kws acc (c :: cs)
      = flushRun kws acc (c :: cs) ++ c :: aliasUpdateAux kws [] cs := by
  rw [aliasUpdateAux, if_neg (by simp [h])]

theorem followedByEq_space_word {c0 : Char} (h : isWordChar c0 = true) (hne : c0 ≠ '=')
    (l : List Char) : followedByEq (' ' :: c0 :: l) = false := by
  rw [followedByEq]
  rw [List.dropWhile_cons, if_pos (by decide), List.dropWhile_cons,
    if_neg (by simp [isWordChar_ne_space h])]
  cases hc : c0 == '=' <;> simp_all [hne]

theorem aliasUpdateAux_SET (kws : List String) (X : List Char)
    (hX : followedByEq (' ' :: X) = false) :
    aliasUpdateAux kws [] ('S' :: 'E' :: 'T' :: ' ' :: X)
      = 'S' :: 'E' :: 'T' :: ' ' :: aliasUpdateAux kws [] X := by
  have h1 : ('S' :: 'E' :: 'T' :: ' ' :: X) = ['S', 'E', 'T'] ++ (' ' :: X) := by simp
  rw [h1, aliasUpdateAux_word_run kws ['S', 'E', 'T'] [] (' ' :: X) (by decide)]
  rw [List.nil_append, aliasUpdateAux_nonword_step kws _ ' ' X (by decide)]
  rw [flushRun, if_neg (by simp), hX]
  simp

theorem aliasUpdateAux_keyword_before_eq (kws : List String) (w : String)
    (hne : w.data ≠ []) (hw : ∀ c ∈ w.data, isWordChar c = true)
    (hk : kws.contains (asciiToLower w) = true) (tail : List Char) :
    aliasUpdateAux kws [] (w.data ++ (' ' :: '=' :: tail))
      = ('#' :: w.data) ++ ' ' :: aliasUpdateAux kws [] ('=' :: tail) := by
  rw [aliasUpdateAux_word_run kws w.data [] _ hw, List.nil_append]
  rw [aliasUpdateAux_nonword_step kws _ ' ' _ (by decide)]
  rw [flushRun, if_neg (by simpa using hne)]
  have hfe : followedByEq (' ' :: '=' :: tail) = true := by
    rw [followedByEq]
    rw [List.dropWhile_cons, if_pos (by decide), List.dropWhile_cons, if_neg (by decide)]
    rfl
  have hmk : (⟨w.data⟩ : String) = w := rfl
  rw [hmk, hk, hfe]
  simp

/-- C1 counterexample: a query request with sort key present and the
unrecognized comparator spelling "FOO" makes the key-condition compiler throw
`Invalid operation key: FOO` — it does not fall back to appending
` AND #sk = :sk`. -/
theorem claim_C1_counterexample :
    createKeyConditionExpression
      { pKey := "p", pKeyType := "S", pKeyProp := "pk", sKey := some "s",
        sKeyType := some "S", sKeyProp := some "sk", skComparator := some "FOO" }
      = .error "Invalid operation key: FOO"
    ∧ createKeyConditionExpression
      { pKey := "p", pKeyType := "S", pKeyProp := "pk", sKey := some "s",
        sKeyType := some "S", sKeyProp := some "sk", skComparator := some "FOO" }
      ≠ .ok "#pk = :pk AND #sk = :sk" := by
  exact ⟨by decide, by decide⟩

/-- C1 (amended): for a query request with sort key present, an unrecognized
comparator spelling makes `getOperatorSymbolByKey` throw
`Invalid operation key`, so `createKeyConditionExpression` errors rather than
silently degrading; the ` AND #sk = :sk` equality fallback of the `default`
branch applies exactly when the comparator normalizes to `=` (spellings
`=` or `EQUAL`, case-insensitively). -/
theorem claim_C1_amended (q : DynamoQueryRequest) (c : String)
    (hsk : jsTruthy q.sKey = true) (hc : q.skComparator = some c) :
    (asciiToUpper c ∉ (["BETWEEN", "BEGINS_WITH", "GREATER_THAN", ">", "LESS_THAN", "<",
        "GREATER_THAN_OR_EQUAL", ">=", "LESS_THAN_OR_EQUAL", "<=", "EQUAL", "="] : List String) →
      createKeyConditionExpression q = .error ("Invalid operation key: " ++ c))
    ∧ ((asciiToUpper c = "EQUAL" ∨ asciiToUpper c = "=") →
      createKeyConditionExpression q = .ok "#pk = :pk AND #sk = :sk") := by
  rw [createKeyConditionExpression]
  rw [if_neg (by simp [hsk])]
  rw [hc]
  constructor
  · intro hnotin
    have hop : getOperatorSymbolByKey ((some c).getD "=") = .error ("Invalid operation key: " ++ c) := by
      rw [Option.getD_some, getOperatorSymbolByKey]
      split <;> simp_all
    rw [hop]
    rfl
  · intro heq
    have hop : getOperatorSymbolByKey ((some c).getD "=") = .ok "=" := by
      rw [Option.getD_some, getOperatorSymbolByKey]
      split <;> simp_all
    rw [hop]
    rfl

/-- C1 witness: the amended statement applied at the comparator spellings
"FOO" (error) and "equal" (equality fallback). -/
theorem claim_C1_amended_witness :
    jsTruthy (some "s") = true
    ∧ createKeyConditionExpression
        { pKey := "p", pKeyType := "S", pKeyProp := "pk", sKey := some "s",
          sKeyType := some "S", sKeyProp := some "sk", skComparator := some "FOO" }
      = .error "Invalid operation key: FOO"
    ∧ createKeyConditionExpression
        { pKey := "p", pKeyType := "S", pKeyProp := "pk", sKey := some "s",
          sKeyType := some "S", sKeyProp := some "sk", skComparator := some "equal" }
      = .ok "#pk = :pk AND #sk = :sk" :=
  ⟨by decide,
    (claim_C1_amended _ "FOO" (by decide) rfl).1 (by decide),
    (claim_C1_amended _ "equal" (by decide) rfl).2 (by decide)⟩

/-- C2 request: a query request with comparator BEGINS_WITH that passes the
`dynamoQueryRequestSch` validation (so `skValue2` is necessarily absent). -/
def c2Request : DynamoQueryRequest :=
  { pKey := "USER#1", pKeyType := "S", pKeyProp := "pk", sKey := some "abc",
    sKeyType := some "S", sKeyProp := some "sk", skComparator := some "BEGINS_WITH" }

/-- C2: on a validated BEGINS_WITH request the builder produces the claimed
key-condition expression `#pk = :pk AND begins_with(#sk, :skValue2)`, but the
value map binds `:sk` (from `sKey`) and leaves `:skValue2` unbound — the
opposite of the claim, and an expression/value-map mismatch in the code
itself (the emitted command references a placeholder it never binds). -/
theorem claim_C2_code_bug :
    isValidDynamoQueryRequest c2Request = true
    ∧ (buildQueryCommandInput { tableName := "T", queryRequest := c2Request }).map
        QueryCommandInput.keyConditionExpression
      = .ok "#pk = :pk AND begins_with(#sk, :skValue2)"
    ∧ (buildQueryCommandInput { tableName := "T", queryRequest := c2Request }).map
        (fun out => jsGet out.expressionAttributeValues ":sk")
      = .ok (some (.str "abc"))
    ∧ (buildQueryCommandInput { tableName := "T", queryRequest := c2Request }).map
        (fun out => jsGet out.expressionAttributeValues ":skValue2")
      = .ok none := by
  refine ⟨by decide, by decide, by decide, by decide⟩

/-- C9: number-set coercion of a raw attribute value (`parseDynamoKeyValue`
with type tag `"NS"`) never fails: it splits on commas, parses each trimmed
element and silently drops exactly the elements whose parse is `NaN` —
whereas `parseSetElement` for a number-set filter is strict, failing with the
invalid-numeric error on any element whose parse is not finite and
succeeding otherwise. -/
theorem claim_C9_ns_coercion_asymmetry :
    (∀ s : String, parseDynamoKeyValue s "NS"
      = .ok (.numList ((splitOnChar ',' s).filterMap (fun item =>
          if (jsNumber (strTrim item)).isNN then none else some (jsNumber (strTrim item))))))
    ∧ (∀ raw : String, (jsNumber raw).isFin = false →
      parseSetElement .NS raw
        = .error ("Invalid numeric value \"" ++ raw ++ "\" for type NS element"))
    ∧ (∀ raw : String, (jsNumber raw).isFin = true →
      parseSetElement .NS raw = .ok (.num (jsNumber raw))) := by
  refine ⟨?_, ?_, ?_⟩
  · intro s
    rw [parseDynamoKeyValue]
    congr 2
    induction splitOnChar ',' s with
    | nil => rfl
    | cons hd tl ih =>
      rw [List.map_cons, List.filterMap_cons, List.filter_cons]
      by_cases hnn : (jsNumber (strTrim hd)).isNN
      · simp [hnn, ih]
      · simp [hnn, ih]
  · intro raw hfin
    rw [parseSetElement]
    simp [hfin]
  · intro raw hfin
    rw [parseSetElement]
    simp [hfin]

/-- C9 witness: the raw value "1, x,2.5" coerces leniently to the two
parseable numbers (the unparseable " x" is dropped silently), while the
strict per-element parser rejects "x" and accepts "2.5". -/
theorem claim_C9_witness :
    parseDynamoKeyValue "1, x,2.5" "NS"
      = .ok (.numList [.finite 1 0, .finite 25 (-1)])
    ∧ (jsNumber "x").isFin = false
    ∧ parseSetElement .NS "x" = .error "Invalid numeric value \"x\" for type NS element"
    ∧ (jsNumber "2.5").isFin = true
    ∧ parseSetElement .NS "2.5" = .ok (.num (jsNumber "2.5")) :=
  ⟨by rw [(claim_C9_ns_coercion_asymmetry).1 "1, x,2.5"]; decide,
    by decide,
    (claim_C9_ns_coercion_asymmetry).2.1 "x" (by decide),
    by decide,
    (claim_C9_ns_coercion_asymmetry).2.2 "2.5" (by decide)⟩

/-- C10 counterexample: an input whose `filtersAttributes` is a non-empty
array but which fails `customScanCommandInputSch` (here an EXISTS filter
illegally carrying a `value`, rejected by `dynamoFilterSch`) makes
`buildScanCommandInput` throw the parse's ZodError — not the
`QueryParseError` with status 400 the claim asserts for every such input. -/
theorem claim_C10_counterexample :
    buildScanCommandInput
      { tableName := "T",
        filtersAttributes := some [⟨"a", .S, .EXISTS, some "x", none, none⟩] }
      = .error .zodError
    ∧ buildScanCommandInput
        { tableName := "T",
          filtersAttributes := some [⟨"a", .S, .EXISTS, some "x", none, none⟩] }
      ≠ .error (.queryParse
          ⟨"Provide either filtersAttributes or filterExpression (not both).", 400⟩) := by
  exact ⟨by decide, by decide⟩

/-- C10 (amended): for every input that passes the opening
`customScanCommandInputSch.parse`, a non-empty `filtersAttributes` makes
`buildScanCommandInput` throw the `QueryParseError` with status 400 and
message 'Provide either filtersAttributes or filterExpression (not both).' —
regardless of whether `filterExpression` is supplied — and for every input
(valid or not) the whole builder is extensionally equal to the variant with
the auto-generation branch deleted, so the branch that would call
`generateDynamoFilterAttributes` is unreachable. -/
theorem claim_C10_filters_guard (custom : CustomScanCommandInput) :
    (isValidCustomScanCommandInput custom = true →
      ∀ l, custom.filtersAttributes = some l → l ≠ [] →
      buildScanCommandInput custom
        = .error (.queryParse
            ⟨"Provide either filtersAttributes or filterExpression (not both).", 400⟩))
    ∧ buildScanCommandInput custom = buildScanCommandInputNoAuto custom := by
  constructor
  · intro hvalid l hl hne
    have hnv : ¬(¬isValidCustomScanCommandInput custom = true) := by simp [hvalid]
    rw [buildScanCommandInput, if_neg hnv, if_pos]
    rw [hl]
    simpa using List.length_pos.mpr hne
  · rw [buildScanCommandInput, buildScanCommandInputNoAuto]
    by_cases hv : isValidCustomScanCommandInput custom = true
    · have hnv : ¬(¬isValidCustomScanCommandInput custom = true) := by simp [hv]
      rw [if_neg hnv, if_neg hnv]
      by_cases hc : (match custom.filtersAttributes with
        | some l => l.length > 0
        | none => false : Bool) = true
      · rw [if_pos hc, if_pos hc]
      · rw [if_neg hc, if_neg hc, if_neg hc]
    · have hpv : ¬isValidCustomScanCommandInput custom = true := hv
      rw [if_pos hpv, if_pos hpv]

/-- C10 witness: the guard applied at a concrete schema-valid input carrying
one filter attribute and no filter expression. -/
theorem claim_C10_witness :
    isValidCustomScanCommandInput
      { tableName := "T",
        filtersAttributes := some [⟨"a", .S, .EXISTS, none, none, none⟩] } = true
    ∧ buildScanCommandInput
      { tableName := "T",
        filtersAttributes := some [⟨"a", .S, .EXISTS, none, none, none⟩] }
      = .error (.queryParse
          ⟨"Provide either filtersAttributes or filterExpression (not both).", 400⟩)
    ∧ buildScanCommandInput
        { tableName := "T",
          filtersAttributes := some [⟨"a", .S, .EXISTS, none, none, none⟩] }
      = buildScanCommandInputNoAuto
        { tableName := "T",
          filtersAttributes := some [⟨"a", .S, .EXISTS, none, none, none⟩] } :=
  ⟨by decide,
    (claim_C10_filters_guard _).1 (by decide) [⟨"a", .S, .EXISTS, none, none, none⟩] rfl
      (by decide),
    (claim_C10_filters_guard _).2⟩

/-- C7: in update compilation from a field/value map, the candidate value
token for a field is `:{field}`; when it is free it is used as-is, and when
it is already taken (with `:{field}_update_1` free) the compiler uses
`:{field}_update_1` instead — and whatever tokens are chosen, every
caller-supplied entry of the accumulated value map keeps its original value
through the whole loop (never overwritten). -/
theorem claim_C7_token_collision :
    (∀ (vals : List (String × DVal)) (field : String) (v : DVal),
      jsGet vals (":" ++ field) = none →
      processUpdateField vals field v
        = (field ++ " = " ++ (":" ++ field), jsSet vals (":" ++ field) v))
    ∧ (∀ (vals : List (String × DVal)) (field : String) (v : DVal),
      (jsGet vals (":" ++ field)).isSome →
      jsGet vals (":" ++ field ++ "_update_" ++ natToString 1) = none →
      processUpdateField vals field v
        = (field ++ " = " ++ (":" ++ field ++ "_update_" ++ natToString 1),
          jsSet vals (":" ++ field ++ "_update_" ++ natToString 1) v))
    ∧ (∀ (item : List (String × DVal)) (parts : List String) (vals : List (String × DVal))
        (k : String) (w : DVal),
      jsGet vals k = some w → jsGet (genUpdateLoop item parts vals).2 k = some w) := by
  refine ⟨?_, ?_, genUpdateLoop_preserves⟩
  · intro vals field v hfree
    rw [processUpdateField]
    simp [hfree]
  · intro vals field v htaken hfree
    rw [processUpdateField]
    simp only [htaken, if_true]
    rw [probeLoop]
    simp [hfree]

/-- C7 witness: with caller values already containing `:name`, compiling the
field `name` uses the token `:name_update_1` and the caller's `:name` entry
survives the loop unchanged. -/
theorem claim_C7_witness :
    jsGet [(":name", DVal.str "KEEP")] ":name" = some (.str "KEEP")
    ∧ processUpdateField [(":name", DVal.str "KEEP")] "name" (.str "NEW")
      = ("name = :name_update_1", [(":name", .str "KEEP"), (":name_update_1", .str "NEW")])
    ∧ jsGet (genUpdateLoop [("name", DVal.str "NEW")] [] [(":name", DVal.str "KEEP")]).2 ":name"
      = some (.str "KEEP")
    ∧ processUpdateField [] "email" (.str "E")
      = ("email = :email", [(":email", .str "E")]) := by
  refine ⟨by decide, ?_, ?_, ?_⟩
  · have := claim_C7_token_collision.2.1 [(":name", DVal.str "KEEP")] "name" (.str "NEW")
      (by decide) (by decide)
    rw [this]
    decide
  · exact claim_C7_token_collision.2.2 [("name", DVal.str "NEW")] [] [(":name", DVal.str "KEEP")]
      ":name" (.str "KEEP") (by decide)
  · have := claim_C7_token_collision.1 [] "email" (.str "E") (by decide)
    rw [this]
    decide

/-- C8 counterexample: the update-expression rewriter does double-prefix an
already-prefixed name — `SET #size = :size` becomes `SET ##size = :size`,
because the word boundary of the regex also matches right after the `#`
marker (`#` is not a word character). -/
theorem claim_C8_counterexample :
    replaceReservedKeywordsFromUpdateExp "SET #size = :size" = "SET ##size = :size"
    ∧ replaceReservedKeywordsFromUpdateExp "SET #size = :size" ≠ "SET #size = :size" := by
  exact ⟨by decide, by decide⟩

/-- C8 (amended): in one case-insensitive pass the update form prefixes every
whole-word reserved keyword immediately followed (after optional whitespace)
by `=` — shown here for a keyword assignment target in a generated `SET`
expression — but it does NOT avoid double-prefixing: the same keyword already
carrying the `#` marker is prefixed again, so `SET #{kw} = :v` becomes
`SET ##{kw} = :v`. -/
theorem claim_C8_amended (w : String) (hne : w ≠ "")
    (hw : ∀ c ∈ w.data, isWordChar c = true)
    (hk : RESERVED_KEYWORDS.contains (asciiToLower w) = true) :
    replaceReservedKeywordsFromUpdateExp ("SET " ++ w ++ " = :v") = "SET #" ++ w ++ " = :v"
    ∧ replaceReservedKeywordsFromUpdateExp ("SET #" ++ w ++ " = :v")
      = "SET ##" ++ w ++ " = :v" := by
  have hdata : w.data ≠ [] := fun h => hne (String.ext h)
  obtain ⟨c0, cs, hcs⟩ : ∃ c0 cs, w.data = c0 :: cs := by
    cases hdw : w.data with
    | nil => exact absurd hdw hdata
    | cons a l => exact ⟨a, l, rfl⟩
  have hc0w : isWordChar c0 = true := hw c0 (by rw [hcs]; simp)
  have htail : aliasUpdateAux RESERVED_KEYWORDS [] ('=' :: ' ' :: ':' :: 'v' :: [])
      = '=' :: ' ' :: ':' :: 'v' :: [] := by decide
  have hX : followedByEq (' ' :: (w.data ++ (' ' :: '=' :: (' ' :: ':' :: 'v' :: [])))) = false := by
    rw [hcs]
    exact followedByEq_space_word hc0w (isWordChar_ne_eq hc0w) _
  constructor
  · apply String.ext
    show aliasUpdateAux RESERVED_KEYWORDS []
        ('S' :: 'E' :: 'T' :: ' ' :: (w.data ++ (' ' :: '=' :: (' ' :: ':' :: 'v' :: []))))
      = 'S' :: 'E' :: 'T' :: ' ' :: '#' :: (w.data ++ (' ' :: '=' :: (' ' :: ':' :: 'v' :: [])))
    rw [aliasUpdateAux_SET _ _ hX]
    rw [aliasUpdateAux_keyword_before_eq _ w hdata hw hk]
    rw [htail]
    rfl
  · apply String.ext
    have hX2 : followedByEq
        (' ' :: '#' :: (w.data ++ (' ' :: '=' :: (' ' :: ':' :: 'v' :: [])))) = false := by
      rw [followedByEq, List.dropWhile_cons, if_pos (by decide), List.dropWhile_cons,
        if_neg (by decide)]
      rfl
    show aliasUpdateAux RESERVED_KEYWORDS []
        ('S' :: 'E' :: 'T' :: ' ' :: '#' :: (w.data ++ (' ' :: '=' :: (' ' :: ':' :: 'v' :: []))))
      = 'S' :: 'E' :: 'T' :: ' ' :: '#' :: '#'
          :: (w.data ++ (' ' :: '=' :: (' ' :: ':' :: 'v' :: [])))
    rw [aliasUpdateAux_SET _ _ hX2]
    rw [aliasUpdateAux_nonword_step _ _ '#' _ (by decide)]
    rw [aliasUpdateAux_keyword_before_eq _ w hdata hw hk]
    rw [htail]
    rfl

/-- C8 witness: the amended statement applied at the reserved keyword
`size`. -/
theorem claim_C8_amended_witness :
    ("size" : String) ≠ ""
    ∧ RESERVED_KEYWORDS.contains (asciiToLower "size") = true
    ∧ replaceReservedKeywordsFromUpdateExp "SET size = :v" = "SET #size = :v"
    ∧ replaceReservedKeywordsFromUpdateExp "SET #size = :v" = "SET ##size = :v" :=
  ⟨by decide, by decide,
    (claim_C8_amended "size" (by decide) (by decide) (by decide)).1,
    (claim_C8_amended "size" (by decide) (by decide) (by decide)).2⟩

/-- C3: when a non-empty filter list compiles successfully, the filter
expression is exactly the per-filter fragments joined with `" AND "` in
input order (one fragment per filter, produced by the switch body
`compileFilter` at that index), and the name map binds exactly the tokens
`#f0 … #f{n-1}` in input order, each to the declared attribute name of the
filter at that index. -/
theorem claim_C3_expression_and_names (filters : List DynamoFilter)
    (g : GeneratedDynamoFilterAttributes)
    (h : generateDynamoFilterAttributes filters = .ok (some g)) :
    g.expressionAttributeNames = (List.range filters.length).map
      (fun i => (makeNameToken i, (filters.getD i ⟨"", .S, .EXISTS, none, none, none⟩).name))
    ∧ ∃ parts, parts.length = filters.length
      ∧ g.filterExpression = String.intercalate " AND " parts
      ∧ ∀ i, i < filters.length → ∃ es,
        compileFilter i (filters.getD i ⟨"", .S, .EXISTS, none, none, none⟩)
          = .ok (parts.getD i "", es) := by
  rw [generateDynamoFilterAttributes] at h
  by_cases hemp : filters.length = 0
  · rw [if_pos hemp] at h
    cases h
  · rw [if_neg hemp] at h
    obtain ⟨a, hloop, hmk⟩ := except_bind_ok h
    obtain ⟨parts, names, vals⟩ := a
    simp only at hmk
    injection hmk with hmk
    injection hmk with hmk
    obtain ⟨hnames, newParts, hparts, hlen, hcomp⟩ :=
      genLoop_ok filters 0 [] [] [] _ (fun j _ => rfl) hloop
    subst hmk
    simp only [List.nil_append] at hnames hparts
    constructor
    · simp [hnames]
    · refine ⟨newParts, hlen, by rw [hparts], ?_⟩
      intro i hi
      obtain ⟨es, hes⟩ := hcomp i hi
      exact ⟨es, by simp at hes ⊢; exact hes⟩

/-- C3 witness: two concrete filters compile to two `" AND "`-joined
fragments with name tokens `#f0`, `#f1` bound in order. -/
theorem claim_C3_witness :
    generateDynamoFilterAttributes
      [⟨"alpha", .S, .EXISTS, none, none, none⟩,
        ⟨"beta", .S, .EQUAL_TO, some "v", none, none⟩]
      = .ok (some ⟨"(attribute_exists(#f0)) AND (#f1 = :f1v)",
        [("#f0", "alpha"), ("#f1", "beta")], [(":f1v", .str "v")]⟩)
    ∧ (⟨"(attribute_exists(#f0)) AND (#f1 = :f1v)",
        [("#f0", "alpha"), ("#f1", "beta")],
        [(":f1v", DVal.str "v")]⟩ : GeneratedDynamoFilterAttributes).expressionAttributeNames
      = (List.range 2).map (fun i => (makeNameToken i,
          (([⟨"alpha", .S, .EXISTS, none, none, none⟩,
            ⟨"beta", .S, .EQUAL_TO, some "v", none, none⟩] :
              List DynamoFilter).getD i ⟨"", .S, .EXISTS, none, none, none⟩).name))
    ∧ ∃ parts, parts.length
        = ([⟨"alpha", .S, .EXISTS, none, none, none⟩,
          ⟨"beta", .S, .EQUAL_TO, some "v", none, none⟩] : List DynamoFilter).length
      ∧ (⟨"(attribute_exists(#f0)) AND (#f1 = :f1v)",
          [("#f0", "alpha"), ("#f1", "beta")],
          [(":f1v", DVal.str "v")]⟩ : GeneratedDynamoFilterAttributes).filterExpression
        = String.intercalate " AND " parts
      ∧ ∀ i, i < ([⟨"alpha", .S, .EXISTS, none, none, none⟩,
          ⟨"beta", .S, .EQUAL_TO, some "v", none, none⟩] : List DynamoFilter).length → ∃ es,
        compileFilter i (([⟨"alpha", .S, .EXISTS, none, none, none⟩,
            ⟨"beta", .S, .EQUAL_TO, some "v", none, none⟩] :
              List DynamoFilter).getD i ⟨"", .S, .EXISTS, none, none, none⟩)
          = .ok (parts.getD i "", es) :=
  ⟨by decide,
    (claim_C3_expression_and_names _ _ (by decide)).1,
    (claim_C3_expression_and_names _ _ (by decide)).2⟩

/-- C5: for a BETWEEN filter at index `i` — a missing `value` or `value2`
fails with the missing-operand error; with both present, a declared type in
{SS, NS, BOOL, NULL} fails with the type-mismatch error; otherwise (when the
two coercions succeed) it renders `(#f{i} BETWEEN :f{i}v AND :f{i}v2)` with
the two tokens bound to the coerced `value` and `value2`. -/
theorem claim_C5_between (i : ℕ) (f : DynamoFilter) (hc : f.condition = .BETWEEN) :
    ((f.value = none ∨ f.value2 = none) →
      compileFilter i f
        = .error ("BETWEEN requires value and value2 for filter[" ++ natToString i ++ "]"))
    ∧ (∀ v1 v2, f.value = some v1 → f.value2 = some v2 →
      (f.type = .SS ∨ f.type = .NS ∨ f.type = .BOOL ∨ f.type = .NULL) →
      compileFilter i f
        = .error ("BETWEEN is not valid for type " ++ f.type.toStr ++ " (filter["
          ++ natToString i ++ "])"))
    ∧ (∀ v1 v2 p1 p2, f.value = some v1 → f.value2 = some v2 →
      ¬(f.type = .SS ∨ f.type = .NS ∨ f.type = .BOOL ∨ f.type = .NULL) →
      parseValueByType f.type v1 = .ok p1 → parseValueByType f.type v2 = .ok p2 →
      compileFilter i f
        = .ok ("(" ++ makeNameToken i ++ " BETWEEN " ++ makeValueToken i "v" ++ " AND "
            ++ makeValueToken i "v2" ++ ")",
          [(makeValueToken i "v", p1), (makeValueToken i "v2", p2)])) := by
  refine ⟨?_, ?_, ?_⟩
  · intro hor
    rcases hor with h | h
    · rcases hv2 : f.value2 with _ | v2 <;> simp [compileFilter, hc, h, hv2]
    · rcases hv1 : f.value with _ | v1 <;> simp [compileFilter, hc, h, hv1]
  · intro v1 v2 h1 h2 htype
    simp only [compileFilter, hc, h1, h2]
    rw [if_pos htype]
  · intro v1 v2 p1 p2 h1 h2 htype hp1 hp2
    simp only [compileFilter, hc, h1, h2]
    rw [if_neg htype]
    simp [hp1, hp2, Bind.bind, Except.bind]

/-- C5 witness: the three BETWEEN behaviors at concrete filters — missing
`value2`, declared type SS, and the successful string rendering at index 0. -/
theorem claim_C5_witness :
    compileFilter 0 ⟨"age", .N, .BETWEEN, some "1", none, none⟩
      = .error "BETWEEN requires value and value2 for filter[0]"
    ∧ compileFilter 0 ⟨"tags", .SS, .BETWEEN, some "a", some "b", none⟩
      = .error "BETWEEN is not valid for type SS (filter[0])"
    ∧ compileFilter 0 ⟨"code", .S, .BETWEEN, some "a", some "b", none⟩
      = .ok ("(#f0 BETWEEN :f0v AND :f0v2)",
        [(":f0v", .str "a"), (":f0v2", .str "b")]) := by
  refine ⟨?_, ?_, ?_⟩
  · have := (claim_C5_between 0 ⟨"age", .N, .BETWEEN, some "1", none, none⟩ rfl).1
      (Or.inr rfl)
    rw [this]
    decide
  · have := (claim_C5_between 0 ⟨"tags", .SS, .BETWEEN, some "a", some "b", none⟩ rfl).2.1
      "a" "b" rfl rfl (Or.inl rfl)
    rw [this]
    decide
  · have := (claim_C5_between 0 ⟨"code", .S, .BETWEEN, some "a", some "b", none⟩ rfl).2.2
      "a" "b" (.str "a") (.str "b") rfl rfl (by decide) rfl rfl
    rw [this]
    decide

/-- C6: for the six comparison conditions with their operator mapping
{EQUAL_TO ↦ =, NOT_EQUAL_TO ↦ <>, LESS_THAN ↦ <, LESS_THAN_OR_EQUAL_TO ↦ <=,
GREATER_THAN ↦ >, GREATER_THAN_OR_EQUAL_TO ↦ >=} — a set type (SS or NS)
fails with the error message suggesting CONTAINS/NOT_CONTAINS, a missing
`value` fails with the requires-value error, and otherwise (when coercion
succeeds) the fragment `(#f{i} {op} :f{i}v)` is rendered with the single
token `:f{i}v` bound to the coerced value. -/
theorem claim_C6_comparisons (i : ℕ) (f : DynamoFilter) (op : String)
    (hmem : (f.condition, op) ∈ ([(.EQUAL_TO, "="), (.NOT_EQUAL_TO, "<>"), (.LESS_THAN, "<"),
      (.LESS_THAN_OR_EQUAL_TO, "<="), (.GREATER_THAN, ">"),
      (.GREATER_THAN_OR_EQUAL_TO, ">=")] : List (FCond × String))) :
    ((f.type = .SS ∨ f.type = .NS) →
      compileFilter i f
        = .error ("Comparator \"" ++ f.condition.toStr ++ "\" is not supported for "
          ++ f.type.toStr ++ "; use CONTAINS/NOT_CONTAINS"))
    ∧ (¬(f.type = .SS ∨ f.type = .NS) → f.value = none →
      compileFilter i f
        = .error (f.condition.toStr ++ " requires value for filter[" ++ natToString i ++ "]"))
    ∧ (∀ v pv, ¬(f.type = .SS ∨ f.type = .NS) → f.value = some v →
      parseValueByType f.type v = .ok pv →
      compileFilter i f
        = .ok ("(" ++ makeNameToken i ++ " " ++ op ++ " " ++ makeValueToken i "v" ++ ")",
          [(makeValueToken i "v", pv)])) := by
  simp only [List.mem_cons, List.not_mem_nil, or_false] at hmem
  rcases hmem with h | h | h | h | h | h <;>
    (obtain ⟨hcond, hop⟩ := Prod.mk.injEq .. ▸ h
     subst hop
     refine ⟨?_, ?_, ?_⟩
     · intro htype
       rcases htype with h' | h' <;> simp [compileFilter, hcond, h']
     · intro htype hval
       simp only [compileFilter, hcond]
       rw [if_neg htype]
       simp [requireValue, hval, hcond, Bind.bind, Except.bind]
     · intro v pv htype hval hp
       simp only [compileFilter, hcond]
       rw [if_neg htype]
       simp [requireValue, hval, hp, Bind.bind, Except.bind])

/-- C6 witness: the set-type error, missing-value error and successful
rendering, at concrete filters for two of the mapped comparators. -/
theorem claim_C6_witness :
    compileFilter 0 ⟨"tags", .NS, .GREATER_THAN, some "1", none, none⟩
      = .error "Comparator \"GREATER_THAN\" is not supported for NS; use CONTAINS/NOT_CONTAINS"
    ∧ compileFilter 1 ⟨"age", .N, .LESS_THAN_OR_EQUAL_TO, none, none, none⟩
      = .error "LESS_THAN_OR_EQUAL_TO requires value for filter[1]"
    ∧ compileFilter 0 ⟨"city", .S, .EQUAL_TO, some "LA", none, none⟩
      = .ok ("(#f0 = :f0v)", [(":f0v", .str "LA")]) := by
  refine ⟨?_, ?_, ?_⟩
  · have := (claim_C6_comparisons 0 ⟨"tags", .NS, .GREATER_THAN, some "1", none, none⟩ ">"
      (by decide)).1 (Or.inr rfl)
    rw [this]
    decide
  · have := (claim_C6_comparisons 1 ⟨"age", .N, .LESS_THAN_OR_EQUAL_TO, none, none, none⟩ "<="
      (by decide)).2.1 (by decide) rfl
    rw [this]
    decide
  · have := (claim_C6_comparisons 0 ⟨"city", .S, .EQUAL_TO, some "LA", none, none⟩ "="
      (by decide)).2.2 "LA" (.str "LA") (by decide) rfl rfl
    rw [this]
    decide

/-- C4: parenthesization of the CONTAINS family at index 0 — CONTAINS on a
set type renders `(contains(#f0, :f0vs0))` for one element (no OR-wrapping
parens) and the double-parenthesized
`((contains(#f0, :f0vs0) OR contains(#f0, :f0vs1)))` for two; NOT_CONTAINS
on a scalar type renders `NOT contains(#f0, :f0v)` with no wrapping
parentheses, and NOT_CONTAINS on a set type renders
`(NOT (contains(#f0, :f0vs0) OR contains(#f0, :f0vs1)))`. -/
theorem claim_C4_contains_parens :
    (∀ (nm : String) (t : FType) (ov ov2 : Option String) (v : String) (pv : DVal),
      (t = .SS ∨ t = .NS) → parseSetElement t v = .ok pv →
      compileFilter 0 ⟨nm, t, .CONTAINS, ov, ov2, some [v]⟩
        = .ok ("(contains(#f0, :f0vs0))", [(":f0vs0", pv)]))
    ∧ (∀ (nm : String) (t : FType) (ov ov2 : Option String) (v1 v2 : String) (pv1 pv2 : DVal),
      (t = .SS ∨ t = .NS) →
      parseSetElement t v1 = .ok pv1 → parseSetElement t v2 = .ok pv2 →
      compileFilter 0 ⟨nm, t, .CONTAINS, ov, ov2, some [v1, v2]⟩
        = .ok ("((contains(#f0, :f0vs0) OR contains(#f0, :f0vs1)))",
          [(":f0vs0", pv1), (":f0vs1", pv2)]))
    ∧ (∀ (nm : String) (t : FType) (ovs : Option (List String)) (v : String) (pv : DVal),
      ¬(t = .SS ∨ t = .NS) → parseValueByType t v = .ok pv →
      compileFilter 0 ⟨nm, t, .NOT_CONTAINS, some v, none, ovs⟩
        = .ok ("NOT contains(#f0, :f0v)", [(":f0v", pv)]))
    ∧ (∀ (nm : String) (t : FType) (ov ov2 : Option String) (v1 v2 : String) (pv1 pv2 : DVal),
      (t = .SS ∨ t = .NS) →
      parseSetElement t v1 = .ok pv1 → parseSetElement t v2 = .ok pv2 →
      compileFilter 0 ⟨nm, t, .NOT_CONTAINS, ov, ov2, some [v1, v2]⟩
        = .ok ("(NOT (contains(#f0, :f0vs0) OR contains(#f0, :f0vs1)))",
          [(":f0vs0", pv1), (":f0vs1", pv2)])) := by
  refine ⟨?_, ?_, ?_, ?_⟩
  · intro nm t ov ov2 v pv ht hp
    rcases ht with rfl | rfl <;>
      (simp only [compileFilter, setElemLoop, Bind.bind]
       rw [hp]
       rfl)
  · intro nm t ov ov2 v1 v2 pv1 pv2 ht hp1 hp2
    rcases ht with rfl | rfl <;>
      (simp only [compileFilter, setElemLoop, Bind.bind]
       rw [hp1, hp2]
       rfl)
  · intro nm t ovs v pv htype hp
    simp only [compileFilter]
    rw [if_neg htype]
    simp only [requireValue, Bind.bind, Except.bind]
    rw [hp]
    rfl
  · intro nm t ov ov2 v1 v2 pv1 pv2 ht hp1 hp2
    rcases ht with rfl | rfl <;>
      (simp only [compileFilter, setElemLoop, Bind.bind]
       rw [hp1, hp2]
       rfl)

/-- C4 witness: the four renderings at concrete filters (string-set CONTAINS
with one and two elements, scalar and set NOT_CONTAINS). -/
theorem claim_C4_witness :
    compileFilter 0 ⟨"tags", .SS, .CONTAINS, none, none, some ["a"]⟩
      = .ok ("(contains(#f0, :f0vs0))", [(":f0vs0", .str "a")])
    ∧ compileFilter 0 ⟨"tags", .SS, .CONTAINS, none, none, some ["a", "b"]⟩
      = .ok ("((contains(#f0, :f0vs0) OR contains(#f0, :f0vs1)))",
        [(":f0vs0", .str "a"), (":f0vs1", .str "b")])
    ∧ compileFilter 0 ⟨"city", .S, .NOT_CONTAINS, some "q", none, none⟩
      = .ok ("NOT contains(#f0, :f0v)", [(":f0v", .str "q")])
    ∧ compileFilter 0 ⟨"nums", .NS, .NOT_CONTAINS, none, none, some ["1", "2"]⟩
      = .ok ("(NOT (contains(#f0, :f0vs0) OR contains(#f0, :f0vs1)))",
        [(":f0vs0", .num (.finite 1 0)), (":f0vs1", .num (.finite 2 0))]) :=
  ⟨claim_C4_contains_parens.1 "tags" .SS none none "a" (.str "a") (Or.inl rfl) (by decide),
    claim_C4_contains_parens.2.1 "tags" .SS none none "a" "b" (.str "a") (.str "b")
      (Or.inl rfl) (by decide) (by decide),
    claim_C4_contains_parens.2.2.1 "city" .S none "q" (.str "q") (by decide) (by decide),
    claim_C4_contains_parens.2.2.2 "nums" .NS none none "1" "2"
      (.num (.finite 1 0)) (.num (.finite 2 0)) (Or.inr rfl) (by decide) (by decide)⟩
